import Mathlib

/-!
Verification of the `memory_pages` crate (files `src/lib.rs`, `src/paged_vec.rs`)
against its natural-language specification.

The development shallowly embeds the crate's data model:

* `Pages<R, W, E>` (src/lib.rs) becomes `MemPages.PagesState` (base address and
  byte length) together with a value-level permission `Triple` standing for the
  type-level marker parameters, and a `Platform` tag selecting between the
  `cfg(target_family = "unix")` and `cfg(target_family = "windows")` branches.
* Kernel interactions are recorded as explicit `KCall` events so that claims of
  the form "the kernel primitive is invoked exactly when ..." become statements
  about the emitted event list.  Panics (`assert_ne!`, kernel-reported failures
  that the code turns into `panic!`) are modelled by `Option`: `none` is a
  panic.  Kernel failures that depend only on the environment (out of memory)
  are idealized as success; failures forced by the arguments themselves
  (`mremap` with `new_size == 0` returns `EINVAL` unconditionally) are modelled
  as `none`.
* `PagedVec<T>` (src/paged_vec.rs) is embedded twice, at two granularities:
  `MemPages.PagedVec` models the logical contents as the list of initialized
  elements (enough for the length/capacity/value claims), and
  `MemPages.PagedVecS` models the backing store slot by slot with explicit
  drop events (needed for the element-lifetime claim).  `size_of::<T>()` is an
  explicit `sz : Nat` parameter of every operation.
-/

set_option maxRecDepth 8192

namespace MemPages

/-- Embeds the constant `PAGE_SIZE` (src/lib.rs:46). -/
def PAGE_SIZE : Nat := 0x1000

/-- Embeds `next_page_boundary` (src/lib.rs:43-45):
`((size + PAGE_SIZE - 1) / PAGE_SIZE) * PAGE_SIZE`. -/
def next_page_boundary (size : Nat) : Nat :=
  ((size + PAGE_SIZE - 1) / PAGE_SIZE) * PAGE_SIZE

/-- Value-level stand-in for the type-level permission markers
(`AllowRead`/`DenyRead`, `AllowWrite`/`DenyWrite`, `AllowExec`/`DenyExec`,
src/lib.rs:96-168): `true` is the `Allow` marker on that axis. -/
structure Triple where
  r : Bool
  w : Bool
  e : Bool
deriving DecidableEq, Repr

/-- The two `cfg(target_family)` branches compiled from src/lib.rs. -/
inductive Platform where
  | unix
  | windows
deriving DecidableEq, Repr

/-- Embeds `Pages::bitmask` (src/lib.rs:207-210) for the unix branch:
the or of the per-axis bitmasks `AllowRead = 0x1`, `AllowWrite = 0x2`,
`AllowExec = 0x4`, each `Deny` marker contributing `0`.  The bits are
disjoint, so the or is a sum. -/
def unix_bitmask (t : Triple) : Nat :=
  (if t.r then 0x1 else 0) + (if t.w then 0x2 else 0) + (if t.e then 0x4 else 0)

/-- Value of `winapi::um::winnt::PAGE_NOACCESS`. -/
def PAGE_NOACCESS : Nat := 0x01
/-- Value of `winapi::um::winnt::PAGE_READONLY`. -/
def PAGE_READONLY : Nat := 0x02
/-- Value of `winapi::um::winnt::PAGE_READWRITE`. -/
def PAGE_READWRITE : Nat := 0x04
/-- Value of `winapi::um::winnt::PAGE_EXECUTE`. -/
def PAGE_EXECUTE : Nat := 0x10
/-- Value of `winapi::um::winnt::PAGE_EXECUTE_READ`. -/
def PAGE_EXECUTE_READ : Nat := 0x20
/-- Value of `winapi::um::winnt::PAGE_EXECUTE_READWRITE`. -/
def PAGE_EXECUTE_READWRITE : Nat := 0x40

/-- Embeds `Pages::flProtect` (src/lib.rs:211-229), the windows branch's
protection encoding: the mask `r*0x1 | w*0x2 | e*0x4` is matched to the
`PAGE_*` constants; masks `0x2` and `0x3` both map to `PAGE_READWRITE`, and
masks `0x6` and `0x7` both map to `PAGE_EXECUTE_READWRITE`. -/
def flProtect (t : Triple) : Nat :=
  match unix_bitmask t with
  | 0x0 => PAGE_NOACCESS
  | 0x1 => PAGE_READONLY
  | 0x2 => PAGE_READWRITE
  | 0x3 => PAGE_READWRITE
  | 0x4 => PAGE_EXECUTE
  | 0x5 => PAGE_EXECUTE_READ
  | 0x6 => PAGE_EXECUTE_READWRITE
  | _ => PAGE_EXECUTE_READWRITE

/-- Platform-dependent protection encoding used by `new_native`, `set_prot`
and the elision test in `into_prot`: `Pages::bitmask` on unix,
`Pages::flProtect` on windows. -/
def prot_encode : Platform → Triple → Nat
  | .unix, t => unix_bitmask t
  | .windows, t => flProtect t

/-- Embeds the fields of `Pages` (src/lib.rs:170-176): the base pointer
`ptr` (as a `Nat` address) and the byte length `len`.  The `PhantomData`
permission markers live in the separate `Triple` arguments. -/
structure PagesState where
  ptr : Nat
  len : Nat
deriving DecidableEq, Repr

/-- Kernel calls the crate issues, recorded as events: `alloc` is
`mmap`/`VirtualAlloc`, `protect` is `mprotect`/`VirtualProtect`. -/
inductive KCall where
  | alloc (length : Nat) (prot : Nat)
  | protect (length : Nat) (prot : Nat)
deriving DecidableEq, Repr

/-- Embeds `Pages::new_native` (unix: src/lib.rs:310-337, windows:
src/lib.rs:291-309) as a trace: the list of kernel calls made, and the
resulting state (`none` for the `assert_ne!(length, 0, ...)` panic, which
fires before any kernel call).  Both branches store
`len = next_page_boundary(length)`; the unix branch passes the rounded
length to `mmap` while the windows branch passes the raw `length` to
`VirtualAlloc`.  `addr` is the address the kernel chooses for the mapping
(an environmental input). -/
def new_native (p : Platform) (t : Triple) (addr : Nat) (length : Nat) :
    List KCall × Option PagesState :=
  if length = 0 then ([], none)
  else
    ([KCall.alloc (match p with
        | .unix => next_page_boundary length
        | .windows => length) (prot_encode p t)],
     some { ptr := addr, len := next_page_boundary length })

/-- Embeds `Pages::into_prot` (src/lib.rs:362-383), the shared body of every
permission transition: the new state keeps `ptr` and `len`; the kernel
protection call (`set_prot`, which issues `mprotect`/`VirtualProtect` over
`self.len`) is elided exactly when the source and target protection
encodings (`bitmask` on unix, `flProtect` on windows) are equal.  `src` is
the triple of the consumed region, `dst` the triple of the produced one. -/
def into_prot (p : Platform) (s : PagesState) (src dst : Triple) :
    PagesState × List KCall :=
  if prot_encode p src = prot_encode p dst then (s, [])
  else (s, [KCall.protect s.len (prot_encode p dst)])

/-- Target triple of `Pages::allow_read` (src/lib.rs:490-492). -/
def allow_read (t : Triple) : Triple := { t with r := true }
/-- Target triple of `Pages::deny_read` (src/lib.rs:495-497). -/
def deny_read (t : Triple) : Triple := { t with r := false }
/-- Target triple of `Pages::allow_write` (src/lib.rs:540-542). -/
def allow_write (t : Triple) : Triple := { t with w := true }
/-- Target triple of `Pages::deny_write` (src/lib.rs:564-566). -/
def deny_write (t : Triple) : Triple := { t with w := false }
/-- Target triple of `Pages::allow_write_no_exec` (src/lib.rs:570-572). -/
def allow_write_no_exec (t : Triple) : Triple := { t with w := true, e := false }
/-- Target triple of `Pages::allow_exec` (src/lib.rs:580-582); defined for
every input triple, with no constraint on the write axis. -/
def allow_exec (t : Triple) : Triple := { t with e := true }
/-- Target triple of `Pages::set_protected_exec` (src/lib.rs:588-590). -/
def set_protected_exec (t : Triple) : Triple := { t with w := false, e := true }
/-- Target triple of `Pages::deny_exec` (src/lib.rs:594-596). -/
def deny_exec (t : Triple) : Triple := { t with e := false }

/-- Embeds `Pages::resize` (src/lib.rs:429-450).  The unix branch calls
`mremap(self.ptr, self.len, new_size, MREMAP_MAYMOVE)` and stores
`self.len = new_size` unrounded; `mremap` rejects `new_size == 0` with
`EINVAL` unconditionally, which the code turns into a panic (`none`).  The
non-unix branch builds `Self::new(new_size)` (panicking on 0) and so stores
the page-rounded length.  `addr` is the possibly relocated base chosen by
the kernel. -/
def resize (p : Platform) (s : PagesState) (addr : Nat) (new_size : Nat) :
    Option PagesState :=
  match p, s with
  | .unix, _ => if new_size = 0 then none else some { ptr := addr, len := new_size }
  | .windows, _ =>
      if new_size = 0 then none
      else some { ptr := addr, len := next_page_boundary new_size }

/-!
List-level model of `PagedVec<T>` (src/paged_vec.rs).  The backing region's
byte length (`self.data.len()`) is the field `bytes`; the initialized
elements (`self[0..len]`) are the list `elems`, so `self.len` is
`elems.length`.  Element size `std::mem::size_of::<T>()` is the explicit
parameter `sz`.  Growth follows the unix branch of `Pages::resize`, which
stores the requested byte count unrounded.  `Option`-valued operations model
panics: Rust's `/` panics when the divisor `size_of::<T>()` is `0`. -/

/-- Fields of `PagedVec<T>` (src/paged_vec.rs:21-25) at list granularity:
`bytes` is `self.data.len()`, `elems` the initialized prefix. -/
structure PagedVec (α : Type) where
  bytes : Nat
  elems : List α
deriving DecidableEq, Repr

/-- Embeds `PagedVec::new` (src/paged_vec.rs:35-43):
`bytes_min = max(capacity * size_of::<T>(), 0x1000)` and the backing is
`Pages::new(bytes_min)`, whose length is `next_page_boundary(bytes_min)`;
the length starts at 0.  No division occurs, so construction succeeds for
every element size, including 0. -/
def PagedVec.new (α : Type) (sz capacity : Nat) : PagedVec α :=
  { bytes := next_page_boundary (max (capacity * sz) 0x1000), elems := [] }

/-- Embeds `PagedVec::capacity` (src/paged_vec.rs:238-241):
`self.data.len() / std::mem::size_of::<T>()`.  Rust's integer division
panics when the divisor is 0, hence the `none` branch for `sz = 0`. -/
def PagedVec.capacity (sz : Nat) (v : PagedVec α) : Option Nat :=
  if sz = 0 then none else some (v.bytes / sz)

/-- Embeds `PagedVec::get_next_cap` (src/paged_vec.rs:97-100): `cap * 2`. -/
def get_next_cap (cap : Nat) : Nat := cap * 2

/-- Embeds `PagedVec::push_within_capacity` (src/paged_vec.rs:60-72).  The
guard is the source's `self.len * std::mem::size_of::<T>() < self.data.len()`
(not `len < capacity`).  On success the element is written at index `len`
and the length is incremented; on failure the vector is untouched and the
value comes back (`Err(t)`, the second component).  No division occurs. -/
def PagedVec.push_within_capacity (sz : Nat) (v : PagedVec α) (t : α) :
    PagedVec α × Option α :=
  if v.elems.length * sz < v.bytes then
    ({ v with elems := v.elems ++ [t] }, none)
  else (v, some t)

/-- Embeds `PagedVec::push` (src/paged_vec.rs:212-221).  When
`self.len * size_of::<T>() >= self.data.len()` it grows via
`self.resize(Self::get_next_cap(self.capacity()))`, i.e. the backing is
resized to `get_next_cap(capacity) * sz` bytes (unix branch of
`Pages::resize`, stored unrounded); `capacity()` panics there when
`sz = 0`.  Then `ptr::write(end, t)` appends without reading or dropping
the slot. -/
def PagedVec.push (sz : Nat) (v : PagedVec α) (t : α) : Option (PagedVec α) :=
  if v.elems.length * sz ≥ v.bytes then
    match PagedVec.capacity sz v with
    | none => none
    | some cap =>
        some { bytes := get_next_cap cap * sz, elems := v.elems ++ [t] }
  else some { v with elems := v.elems ++ [t] }

/-- Embeds `PagedVec::reserve` (src/paged_vec.rs:128-133): it returns early
when `self.len() + additional <= self.capacity()` (always consulting
`capacity`, which panics for `sz = 0`), and otherwise resizes the backing
to `max(len + additional, get_next_cap(capacity))` elements. -/
def PagedVec.reserve (sz : Nat) (v : PagedVec α) (additional : Nat) :
    Option (PagedVec α) :=
  match PagedVec.capacity sz v with
  | none => none
  | some cap =>
      if v.elems.length + additional ≤ cap then some v
      else some { v with
        bytes := (max (v.elems.length + additional) (get_next_cap cap)) * sz }

/-- Embeds `PagedVec::pop` (src/paged_vec.rs:256-268): `None` on an empty
vector; otherwise the element at `last_index = len - 1` is swapped out and
returned and the length is decremented.  The backing is untouched. -/
def PagedVec.pop (v : PagedVec α) : Option α × PagedVec α :=
  if v.elems.isEmpty then (none, v)
  else (v.elems.getLast?, { v with elems := v.elems.dropLast })

/-- Folds `PagedVec.push_within_capacity` over `n` copies of `t`, keeping
only the vector (the driver loop of the tests in src/paged_vec.rs:332-356). -/
def PagedVec.push_within_capacity_iter (sz : Nat) (v : PagedVec α) (t : α) :
    Nat → PagedVec α
  | 0 => v
  | n + 1 =>
      (PagedVec.push_within_capacity sz
        (PagedVec.push_within_capacity_iter sz v t n) t).1

/-- Folds `PagedVec.push` over a list of values, propagating the panic
possibility. -/
def PagedVec.push_all (sz : Nat) :
    Option (PagedVec α) → List α → Option (PagedVec α)
  | none, _ => none
  | some v, [] => some v
  | some v, t :: l => PagedVec.push_all sz (PagedVec.push sz v t) l

/-- Calls `PagedVec.pop` `n` times, collecting the returned values in call
order. -/
def PagedVec.pop_n (v : PagedVec α) : Nat → List (Option α) × PagedVec α
  | 0 => ([], v)
  | n + 1 =>
      let r := PagedVec.pop v
      let rest := PagedVec.pop_n r.2 n
      (r.1 :: rest.1, rest.2)

/-!
Slot-level model of `PagedVec<T>`, used for the element-lifetime claims.
The backing store is viewed as a row of element-sized slots: slot `i` holds
`some a` when a value `a` of the element type is initialized there, and
`none` when the slot holds bytes that are not a live element (never written,
or left behind by a move-out).  Each operation additionally reports the list
of slot contents on which the element type's drop glue ran, in order: a
`some a` entry is a proper drop of the stored value `a`, while a `none`
entry means the drop glue ran on a slot that held no live element
(undefined behavior in the source).  Rust semantics of the relevant
constructs: `slice[i] = t` drops the previous content of the slot before
moving `t` in; `std::ptr::write` and `std::mem::swap` drop nothing. -/

/-- Fields of `PagedVec<T>` (src/paged_vec.rs:21-25) at slot granularity:
`bytes` is `self.data.len()`, `len` is `self.len`, and `store i` is the
content of slot `i`. -/
structure PagedVecS (α : Type) where
  bytes : Nat
  len : Nat
  store : Nat → Option α

/-- Pointwise update of a slot row. -/
def set_slot (store : Nat → Option α) (i : Nat) (a : Option α) :
    Nat → Option α :=
  fun j => if j = i then a else store j

/-- Embeds `PagedVec::new` (src/paged_vec.rs:35-43) at slot granularity:
fresh pages from `mmap` hold no live element, so every slot starts as
`none`. -/
def PagedVecS.new (α : Type) (sz capacity : Nat) : PagedVecS α :=
  { bytes := next_page_boundary (max (capacity * sz) 0x1000)
    len := 0
    store := fun _ => none }

/-- Embeds `PagedVec::push_within_capacity` (src/paged_vec.rs:60-72) at slot
granularity.  Under the guard `self.len * size_of::<T>() < self.data.len()`,
the source builds a slice of `self.len + 1` elements and assigns
`slice[self.len] = t`: the assignment first runs the drop glue on the
previous content of slot `len` (the first drop event), then stores `t`, and
the length is incremented.  Over capacity, nothing is dropped and the value
is returned (`Err(t)`, the third component). -/
def PagedVecS.push_within_capacity (sz : Nat) (v : PagedVecS α) (t : α) :
    PagedVecS α × List (Option α) × Option α :=
  if v.len * sz < v.bytes then
    ({ bytes := v.bytes, len := v.len + 1
       store := set_slot v.store v.len (some t) },
     [v.store v.len], none)
  else (v, [], some t)

/-- Embeds `PagedVec::push` (src/paged_vec.rs:212-221) at slot granularity,
for inputs where the grow branch is not taken
(`self.len * size_of::<T>() < self.data.len()`): `std::ptr::write(end, t)`
stores `t` at slot `len` without dropping anything, and the length is
incremented.  The grow branch only changes `bytes` (a bytewise move). -/
def PagedVecS.push (sz : Nat) (v : PagedVecS α) (t : α) :
    PagedVecS α × List (Option α) :=
  if v.len * sz ≥ v.bytes then
    (({ bytes := get_next_cap (v.bytes / sz) * sz, len := v.len + 1
        store := set_slot v.store v.len (some t) } : PagedVecS α), [])
  else
    ({ bytes := v.bytes, len := v.len + 1
       store := set_slot v.store v.len (some t) }, [])

/-- Embeds `PagedVec::pop` (src/paged_vec.rs:256-268) at slot granularity:
on a non-empty vector, `std::mem::swap` moves the content of slot `len - 1`
out (to be returned) and leaves a non-element in the slot; nothing is
dropped.  The first component is `none` for the empty-vector early return,
and otherwise `some c` where `c` is the slot content handed to the caller
(`c = none` would mean returning a non-element, which the length invariant
rules out). -/
def PagedVecS.pop (v : PagedVecS α) : Option (Option α) × PagedVecS α :=
  if v.len = 0 then (none, v)
  else
    (some (v.store (v.len - 1)),
     { bytes := v.bytes, len := v.len - 1
       store := set_slot v.store (v.len - 1) none })

/-- Embeds `PagedVec::drop_all` (src/paged_vec.rs:293-307), the body of the
`Drop` impl (src/paged_vec.rs:303-307): for each `i` in `0..self.len`, an
uninitialized `tmp` is swapped with slot `i` and dropped at the end of the
iteration, so the drop glue runs once on each of the first `len` slot
contents, in index order, and those slots are left holding non-elements.
The length field is not changed. -/
def PagedVecS.drop_all (v : PagedVecS α) : PagedVecS α × List (Option α) :=
  ({ bytes := v.bytes, len := v.len
     store := fun i => if i < v.len then none else v.store i },
   (List.range v.len).map v.store)

/-- Embeds `PagedVec::clear` (src/paged_vec.rs:282-285): `drop_all` followed
by `self.len = 0`. -/
def PagedVecS.clear (v : PagedVecS α) : PagedVecS α × List (Option α) :=
  let r := PagedVecS.drop_all v
  ({ r.1 with len := 0 }, r.2)

/-!
Availability of the public permission operations of `Pages`, for the
write-xor-execute claim.  `Config` records the two cargo features
(src/lib.rs:13-15): `allow_exec` gates everything execution-related via
`cfg(any(feature = "allow_exec", doc, test))` (src/lib.rs:146, 579, 587,
593), and `deny_xw` is documented (src/lib.rs:15) as preventing
`AllowWrite` together with `AllowExec` — but no item in the source carries
a `deny_xw` cfg gate, so no constructor below depends on it.

`Reachable c t` holds when a region whose permission triple is `t` can be
produced by the public surface under feature configuration `c`: either
directly by `Pages::<R, W, E>::new` (src/lib.rs:254-256; the marker type
`AllowExec` itself exists only under the `allow_exec` feature,
src/lib.rs:146-147), or by one of the permission transitions
(src/lib.rs:490-596) applied to a reachable region.  Each transition's
constraint is exactly the one in the source: the transitions are defined in
`impl<R, W, E> Pages<R, W, E>` for all marker parameters, and only the
execution-related ones are feature-gated. -/

/-- Feature configuration of the crate (src/lib.rs:13-15). -/
structure Config where
  allow_exec : Bool
  deny_xw : Bool
deriving DecidableEq, Repr

/-- Permission triples producible by the public surface under configuration
`c`; see the comment block above for the correspondence with the source. -/
inductive Reachable (c : Config) : Triple → Prop where
  | new (t : Triple) (he : t.e = true → c.allow_exec = true) : Reachable c t
  | allow_read {t : Triple} (h : Reachable c t) : Reachable c (allow_read t)
  | deny_read {t : Triple} (h : Reachable c t) : Reachable c (deny_read t)
  | allow_write {t : Triple} (h : Reachable c t) : Reachable c (allow_write t)
  | deny_write {t : Triple} (h : Reachable c t) : Reachable c (deny_write t)
  | allow_write_no_exec {t : Triple} (h : Reachable c t) :
      Reachable c (allow_write_no_exec t)
  | allow_exec {t : Triple} (hf : c.allow_exec = true) (h : Reachable c t) :
      Reachable c (allow_exec t)
  | set_protected_exec {t : Triple} (hf : c.allow_exec = true)
      (h : Reachable c t) : Reachable c (set_protected_exec t)
  | deny_exec {t : Triple} (hf : c.allow_exec = true) (h : Reachable c t) :
      Reachable c (deny_exec t)

/-! Helper lemmas. -/

/-- The unix protection encoding is injective: two permission triples have
the same `mprotect` bitmask exactly when they are equal. -/
theorem unix_bitmask_inj (t1 t2 : Triple) :
    unix_bitmask t1 = unix_bitmask t2 ↔ t1 = t2 := by
  rcases t1 with ⟨r1, w1, e1⟩
  rcases t2 with ⟨r2, w2, e2⟩
  cases r1 <;> cases w1 <;> cases e1 <;> cases r2 <;> cases w2 <;> cases e2 <;>
    simp [unix_bitmask]

/-- Page rounding for a positive request: the result is the ceiling-division
formula, a positive multiple of the page size, at least the request, and
less than one page above it. -/
theorem next_page_boundary_spec (size : Nat) (h : 0 < size) :
    next_page_boundary size = (size + PAGE_SIZE - 1) / PAGE_SIZE * PAGE_SIZE ∧
    next_page_boundary size % PAGE_SIZE = 0 ∧
    size ≤ next_page_boundary size ∧
    next_page_boundary size < size + PAGE_SIZE := by
  refine ⟨rfl, ?_, ?_, ?_⟩ <;>
    · simp only [next_page_boundary, PAGE_SIZE] at *
      omega

/-- A successful `push` appends the element to the initialized prefix. -/
theorem PagedVec.push_elems {sz : Nat} {v w : PagedVec α} {t : α}
    (h : PagedVec.push sz v t = some w) : w.elems = v.elems ++ [t] := by
  unfold PagedVec.push at h
  by_cases hc : v.elems.length * sz ≥ v.bytes
  · simp only [hc, if_pos] at h
    unfold PagedVec.capacity at h
    by_cases hs : sz = 0
    · simp [hs] at h
    · simp only [hs, if_neg, if_false] at h
      cases h
      rfl
  · simp only [hc, if_neg, if_false] at h
    cases h
    rfl

/-- Folding `push` over `none` stays `none`. -/
theorem PagedVec.push_all_none (sz : Nat) (l : List α) :
    PagedVec.push_all sz none l = none := by
  cases l <;> rfl

/-- A successful `push` chain appends the pushed list to the initialized
prefix. -/
theorem PagedVec.push_all_elems {sz : Nat} (l : List α) (v w : PagedVec α)
    (h : PagedVec.push_all sz (some v) l = some w) :
    w.elems = v.elems ++ l := by
  induction l generalizing v with
  | nil =>
      cases h
      simp
  | cons t l ih =>
      rw [PagedVec.push_all] at h
      cases hp : PagedVec.push sz v t with
      | none => rw [hp, PagedVec.push_all_none] at h; cases h
      | some v1 =>
          rw [hp] at h
          have := ih v1 h
          rw [this, PagedVec.push_elems hp]
          simp

/-- Popping a vector as many times as it has initialized elements returns
them in reverse order and empties the vector without touching the backing. -/
theorem PagedVec.pop_n_full (b : Nat) (l : List α) :
    PagedVec.pop_n (⟨b, l⟩ : PagedVec α) l.length =
      (l.reverse.map some, ⟨b, []⟩) := by
  induction l using List.reverseRecOn with
  | nil => rfl
  | append_singleton ys y ih =>
      have hlen : (ys ++ [y]).length = ys.length + 1 := by simp
      rw [hlen, PagedVec.pop_n]
      have hpop : PagedVec.pop (⟨b, ys ++ [y]⟩ : PagedVec α) =
          (some y, ⟨b, ys⟩) := by
        unfold PagedVec.pop
        simp
      rw [hpop]
      simp only [ih]
      simp

/-! Claim theorems. -/

/-- C1.  Claim: with the `deny_xw` feature on, no sequence of public
operations produces a region with Write=Allow and Execute=Allow, and
`allow_exec` is only available on regions with W=Deny.  The code has no
`deny_xw` gate at all: under the configuration with both features on, the
triple (R=Allow, W=Allow, E=Allow) is reachable, and `allow_exec` applies
to a region with W=Allow, keeping W=Allow. -/
theorem c1_rwe_reachable_with_deny_xw_on :
    Reachable { allow_exec := true, deny_xw := true }
      { r := true, w := true, e := true } ∧
    allow_exec { r := true, w := true, e := false }
      = { r := true, w := true, e := true } := by
  constructor
  · have h0 : Reachable { allow_exec := true, deny_xw := true }
        { r := true, w := true, e := false } :=
      Reachable.new _ (by decide)
    exact Reachable.allow_exec rfl h0
  · rfl

/-- C2.  Claim: `len()` is always a positive multiple of the page size,
preserved by every operation including `resize` with an arbitrary
`new_size`.  The unix branch of `Pages::resize` stores the raw `new_size`:
starting from `Pages::new(0x1000)` and calling `resize(0x1800)` yields a
region whose length `0x1800` is not a multiple of `0x1000`. -/
theorem c2_resize_stores_unrounded_len :
    (new_native .unix { r := true, w := true, e := false } 0 0x1000).2
      = some { ptr := 0, len := 0x1000 } ∧
    resize .unix { ptr := 0, len := 0x1000 } 0 0x1800
      = some { ptr := 0, len := 0x1800 } ∧
    0x1800 % PAGE_SIZE ≠ 0 := by
  refine ⟨?_, ?_, ?_⟩ <;> decide

/-- C4.  For every positive requested length, `new` returns a region whose
length is `ceil(length / 0x1000) * 0x1000` — equivalently the least
multiple of the page size that is at least the request — and in particular
a request of `0x1234` yields `0x2000` and a request of `0x8000` yields
`0x8000`. -/
theorem c4_new_len_rounds_to_page (p : Platform) (t : Triple)
    (addr length : Nat) (h : 0 < length) :
    (∃ s : PagesState, (new_native p t addr length).2 = some s ∧
      s.len = (length + PAGE_SIZE - 1) / PAGE_SIZE * PAGE_SIZE ∧
      s.len % PAGE_SIZE = 0 ∧ length ≤ s.len ∧ s.len < length + PAGE_SIZE) ∧
    ((new_native p t addr 0x1234).2.map PagesState.len = some 0x2000) ∧
    ((new_native p t addr 0x8000).2.map PagesState.len = some 0x8000) := by
  refine ⟨⟨{ ptr := addr, len := next_page_boundary length }, ?_, ?_⟩, ?_, ?_⟩
  · unfold new_native
    rw [if_neg (by omega)]
  · exact next_page_boundary_spec length h
  · unfold new_native
    rw [if_neg (by norm_num)]
    simp [next_page_boundary, PAGE_SIZE]
  · unfold new_native
    rw [if_neg (by norm_num)]
    simp [next_page_boundary, PAGE_SIZE]

/-- Witness for C4, at the unix platform, a read-write triple, kernel
address 0 and requested length 0x1234. -/
theorem c4_witness :
    (∃ s : PagesState,
      (new_native .unix { r := true, w := true, e := false } 0 0x1234).2
        = some s ∧
      s.len = (0x1234 + PAGE_SIZE - 1) / PAGE_SIZE * PAGE_SIZE ∧
      s.len % PAGE_SIZE = 0 ∧ 0x1234 ≤ s.len ∧ s.len < 0x1234 + PAGE_SIZE) ∧
    ((new_native .unix { r := true, w := true, e := false } 0 0x1234).2.map
        PagesState.len = some 0x2000) ∧
    ((new_native .unix { r := true, w := true, e := false } 0 0x8000).2.map
        PagesState.len = some 0x8000) :=
  c4_new_len_rounds_to_page .unix { r := true, w := true, e := false } 0 0x1234
    (by norm_num)

/-- C9.  `new(0)` panics from the `assert_ne!` before any kernel call is
made (the trace of kernel calls is empty and the result is the panic
value), and any region `new` does return has positive length. -/
theorem c9_new_zero_panics_before_kernel_call (p : Platform) (t : Triple)
    (addr length : Nat) (calls : List KCall) (s : PagesState) :
    new_native p t addr 0 = ([], none) ∧
    (new_native p t addr length = (calls, some s) → 0 < s.len) := by
  constructor
  · unfold new_native
    simp
  · intro heq
    unfold new_native at heq
    by_cases h0 : length = 0
    · rw [if_pos h0] at heq
      cases heq
    · rw [if_neg h0] at heq
      have hs : s = { ptr := addr, len := next_page_boundary length } := by
        have := congrArg Prod.snd heq
        simpa using this.symm
      rw [hs]
      simp only [next_page_boundary, PAGE_SIZE]
      omega

/-- Witness for C9, applied at the unix platform, a read-only triple,
address 0 and length 0x1234. -/
theorem c9_witness :
    new_native .unix { r := true, w := false, e := false } 0 0 = ([], none) ∧
    0 < ({ ptr := 0, len := 0x2000 } : PagesState).len := by
  have h := c9_new_zero_panics_before_kernel_call .unix
    { r := true, w := false, e := false } 0 0x1234
    [KCall.alloc 0x2000 0x1] { ptr := 0, len := 0x2000 }
  exact ⟨h.1, h.2 (by decide)⟩

/-- C5 counterexample.  Claim: a transition invokes the kernel protection
primitive exactly when the input triple differs from the output triple.  On
the windows branch `allow_read` on a write-only region changes the triple
but both triples encode to `PAGE_READWRITE`, so the kernel call is elided. -/
theorem c5_counterexample_windows_elides_on_changed_triple :
    (into_prot .windows { ptr := 0, len := 0x1000 }
        { r := false, w := true, e := false }
        (allow_read { r := false, w := true, e := false })).2 = [] ∧
    ({ r := false, w := true, e := false } : Triple)
      ≠ allow_read { r := false, w := true, e := false } := by
  refine ⟨?_, ?_⟩ <;> decide

/-- C5 amended.  Every permission transition keeps the base address and the
byte length; the kernel protection call is issued exactly when the
platform's protection encodings of the two triples differ; on unix that
encoding is injective, so there the call happens exactly when the triples
differ. -/
theorem c5_transition_frame_and_elision (p : Platform) (s : PagesState)
    (t1 t2 : Triple) :
    (into_prot p s t1 t2).1 = s ∧
    ((into_prot p s t1 t2).2 ≠ [] ↔ prot_encode p t1 ≠ prot_encode p t2) ∧
    (unix_bitmask t1 = unix_bitmask t2 ↔ t1 = t2) := by
  refine ⟨?_, ?_, unix_bitmask_inj t1 t2⟩
  · unfold into_prot
    by_cases h : prot_encode p t1 = prot_encode p t2 <;> simp [h]
  · unfold into_prot
    by_cases h : prot_encode p t1 = prot_encode p t2 <;> simp [h]

/-- Repeated `push_within_capacity` of `()` (element size 3, the model of
`PagedVec<[u8; 3]>::new(1)`): each of the first 1365 calls succeeds, giving
backing of 0x1000 bytes holding `k` initialized elements.  The guard of
call `k + 1` is `k * 3 < 0x1000`, which still holds at `k = 1365`. -/
theorem push_within_capacity_iter_size3 (k : Nat) (hk : k ≤ 1365) :
    PagedVec.push_within_capacity_iter 3 (PagedVec.new Unit 3 1) () k
      = ⟨0x1000, List.replicate k ()⟩ := by
  induction k with
  | zero => decide
  | succ n ih =>
      rw [PagedVec.push_within_capacity_iter, ih (by omega)]
      unfold PagedVec.push_within_capacity
      rw [if_pos (by simp; omega)]
      simp [List.replicate_succ']

/-- C3.  Claim: `push_within_capacity` succeeds exactly when
`len < capacity`.  The guard in the source is
`len * size_of::<T>() < data.len()`, which differs when the element size
does not divide the backing bytes: with element size 3 and backing 0x1000
(reached from `PagedVec::new(1)` by 1365 successful pushes), `capacity()`
is 1365, yet the 1366th `push_within_capacity` also succeeds (its guard is
`1365 * 3 = 0xFFF < 0x1000`) and leaves `len = 1366 > capacity`. -/
theorem c3_push_within_capacity_succeeds_at_capacity :
    PagedVec.push_within_capacity_iter 3 (PagedVec.new Unit 3 1) () 1365
      = ⟨0x1000, List.replicate 1365 ()⟩ ∧
    PagedVec.capacity 3 (⟨0x1000, List.replicate 1365 ()⟩ : PagedVec Unit)
      = some 1365 ∧
    (PagedVec.push_within_capacity 3
        (⟨0x1000, List.replicate 1365 ()⟩ : PagedVec Unit) ()).2 = none ∧
    (PagedVec.push_within_capacity 3
        (⟨0x1000, List.replicate 1365 ()⟩ : PagedVec Unit) ()).1.elems.length
      = 1366 := by
  have hguard :
      ((⟨0x1000, List.replicate 1365 ()⟩ : PagedVec Unit)).elems.length * 3
        < ((⟨0x1000, List.replicate 1365 ()⟩ : PagedVec Unit)).bytes := by
    show (List.replicate 1365 ()).length * 3 < 0x1000
    rw [List.length_replicate]
    norm_num
  refine ⟨push_within_capacity_iter_size3 1365 (by omega), ?_, ?_, ?_⟩
  · rfl
  · unfold PagedVec.push_within_capacity
    rw [if_pos hguard]
  · unfold PagedVec.push_within_capacity
    rw [if_pos hguard]
    show (List.replicate 1365 () ++ [()]).length = 1366
    rw [List.length_append, List.length_replicate]
    norm_num

/-- C6.  `pop` on an empty vector returns `none` and leaves the vector
unchanged; on a non-empty vector it returns the last initialized element
(the one at the new length), drops it from the prefix, decrements the
length by one, and leaves the backing untouched. -/
theorem c6_pop_empty_none_nonempty_moves_last {α : Type} (v : PagedVec α) :
    (v.elems = [] → PagedVec.pop v = (none, v)) ∧
    (v.elems ≠ [] →
      (PagedVec.pop v).1 = v.elems.getLast? ∧
      (PagedVec.pop v).2.elems = v.elems.dropLast ∧
      (PagedVec.pop v).2.elems.length + 1 = v.elems.length ∧
      (PagedVec.pop v).2.bytes = v.bytes) := by
  constructor
  · intro h
    unfold PagedVec.pop
    rw [if_pos (by simp [h])]
  · intro h
    unfold PagedVec.pop
    rw [if_neg (by simp [h])]
    refine ⟨rfl, rfl, ?_, rfl⟩
    have hpos : 0 < v.elems.length := List.length_pos.mpr h
    simp [List.length_dropLast]
    omega

/-- Witness for C6, applied at an empty vector and at the concrete vector
holding `[1, 2, 3]`. -/
theorem c6_witness :
    PagedVec.pop (⟨0x1000, ([] : List Nat)⟩ : PagedVec Nat)
      = (none, ⟨0x1000, []⟩) ∧
    (PagedVec.pop (⟨0x1000, [1, 2, 3]⟩ : PagedVec Nat)).1 = some 3 ∧
    (PagedVec.pop (⟨0x1000, [1, 2, 3]⟩ : PagedVec Nat)).2.elems = [1, 2] ∧
    (PagedVec.pop (⟨0x1000, [1, 2, 3]⟩ : PagedVec Nat)).2.elems.length + 1
      = 3 ∧
    (PagedVec.pop (⟨0x1000, [1, 2, 3]⟩ : PagedVec Nat)).2.bytes = 0x1000 := by
  have h1 :=
    (c6_pop_empty_none_nonempty_moves_last
      (⟨0x1000, ([] : List Nat)⟩ : PagedVec Nat)).1 rfl
  have h2 :=
    (c6_pop_empty_none_nonempty_moves_last
      (⟨0x1000, [1, 2, 3]⟩ : PagedVec Nat)).2 (by decide)
  exact ⟨h1, h2.1, h2.2.1, h2.2.2.1, h2.2.2.2⟩

/-- C7.  Pushing a list of distinct values onto a fresh vector and then
popping as many times returns the values in reverse (LIFO) order; the
vector ends empty, with the backing — hence the capacity — exactly as it
was just before the pops. -/
theorem c7_lifo_round_trip {α : Type} (sz cap : Nat) (l : List α)
    (w : PagedVec α) (hnd : l.Nodup)
    (h : PagedVec.push_all sz (some (PagedVec.new α sz cap)) l = some w) :
    (PagedVec.pop_n w l.length).1 = l.reverse.map some ∧
    (PagedVec.pop_n w l.length).2.elems = [] ∧
    (PagedVec.pop_n w l.length).2.bytes = w.bytes ∧
    PagedVec.capacity sz (PagedVec.pop_n w l.length).2
      = PagedVec.capacity sz w := by
  have helems : w.elems = l := by
    have := PagedVec.push_all_elems l _ w h
    simpa [PagedVec.new] using this
  obtain ⟨wb, wl⟩ := w
  simp only at helems
  subst helems
  have hfull := PagedVec.pop_n_full wb wl
  rw [hfull]
  exact ⟨rfl, rfl, rfl, rfl⟩

/-- Witness for C7: pushing `[1, 2, 3]` (element size 8, requested capacity
4) and popping three times. -/
theorem c7_witness :
    (PagedVec.pop_n (⟨0x1000, [1, 2, 3]⟩ : PagedVec Nat) 3).1
      = [some 3, some 2, some 1] ∧
    (PagedVec.pop_n (⟨0x1000, [1, 2, 3]⟩ : PagedVec Nat) 3).2.elems = [] ∧
    (PagedVec.pop_n (⟨0x1000, [1, 2, 3]⟩ : PagedVec Nat) 3).2.bytes
      = 0x1000 ∧
    PagedVec.capacity 8 (PagedVec.pop_n (⟨0x1000, [1, 2, 3]⟩ : PagedVec Nat) 3).2
      = PagedVec.capacity 8 (⟨0x1000, [1, 2, 3]⟩ : PagedVec Nat) := by
  have h := c7_lifo_round_trip 8 4 [1, 2, 3]
    (⟨0x1000, [1, 2, 3]⟩ : PagedVec Nat) (by decide) (by decide)
  exact ⟨h.1, h.2.1, h.2.2.1, h.2.2.2⟩

/-- C8.  Claim: inserting `n` elements and then dropping the sequence runs
the element destructor exactly `n` times, and no uninitialized slot is ever
dropped.  In the source, `push_within_capacity` assigns `slice[self.len] = t`,
and a Rust slice assignment first runs the drop glue on the slot's previous
content — here a slot that holds no live element.  With `n = 1`: the insert
succeeds, its drop-event list already contains one drop of a non-element
slot (`none`), destruction then drops the stored element, so the drop glue
runs twice in total instead of once. -/
theorem c8_insert_runs_drop_glue_on_uninit_slot :
    (PagedVecS.push_within_capacity 8 (PagedVecS.new Nat 8 0x1000) 42).2.2
      = none ∧
    (PagedVecS.push_within_capacity 8 (PagedVecS.new Nat 8 0x1000) 42).2.1
      = [none] ∧
    (PagedVecS.drop_all
        (PagedVecS.push_within_capacity 8 (PagedVecS.new Nat 8 0x1000) 42).1).2
      = [some 42] ∧
    (PagedVecS.push_within_capacity 8
          (PagedVecS.new Nat 8 0x1000) 42).2.1.length +
        (PagedVecS.drop_all
          (PagedVecS.push_within_capacity 8
            (PagedVecS.new Nat 8 0x1000) 42).1).2.length = 2 := by
  refine ⟨?_, ?_, ?_, ?_⟩ <;> decide

/-- C10 counterexample.  Claim: every operation that consults `capacity`,
such as `push`, divides by zero and panics for a zero-sized element type.
`push` on a fresh zero-sized-element vector does not panic: its grow guard
`len * 0 >= data.len()` never holds (the backing is a page), so `capacity`
is never consulted and the push succeeds. -/
theorem c10_counterexample_zst_push_does_not_panic :
    PagedVec.push 0 (PagedVec.new Nat 0 1) 42 = some ⟨0x1000, [42]⟩ := by
  decide

/-- C10 amended.  For a zero-sized element type, construction succeeds
(`new` performs no division and allocates one page), and `capacity` and
`reserve` (which always consults `capacity`) panic with a division by zero;
but `push` never consults `capacity` — its grow guard `len * 0 >= bytes`
cannot hold on a region with positive length — so `push` succeeds without
panicking. -/
theorem c10_zst_capacity_reserve_panic_push_succeeds {α : Type}
    (v : PagedVec α) (t : α) (additional cap : Nat) (hb : 0 < v.bytes) :
    PagedVec.capacity 0 v = none ∧
    PagedVec.reserve 0 v additional = none ∧
    (PagedVec.new α 0 cap).bytes = 0x1000 ∧
    PagedVec.push 0 v t = some { v with elems := v.elems ++ [t] } := by
  refine ⟨rfl, rfl, ?_, ?_⟩
  · simp [PagedVec.new, next_page_boundary, PAGE_SIZE]
  · unfold PagedVec.push
    rw [if_neg (by simp; omega)]

/-- Witness for C10 amended, at a fresh zero-sized-element vector with one
page of backing. -/
theorem c10_witness :
    PagedVec.capacity 0 (⟨0x1000, ([] : List Nat)⟩ : PagedVec Nat) = none ∧
    PagedVec.reserve 0 (⟨0x1000, ([] : List Nat)⟩ : PagedVec Nat) 2 = none ∧
    (PagedVec.new Nat 0 5).bytes = 0x1000 ∧
    PagedVec.push 0 (⟨0x1000, ([] : List Nat)⟩ : PagedVec Nat) 7
      = some ⟨0x1000, [7]⟩ :=
  c10_zst_capacity_reserve_panic_push_succeeds
    (⟨0x1000, ([] : List Nat)⟩ : PagedVec Nat) 7 2 5 (by decide)

end MemPages
